import Mathlib

/-
Verification of the firstratio repository (MCP tool-exposure scripts) against
its natural-language specification.

The development shallowly embeds:
  * the filesystem MCP server handlers (src/mcp_basics/filesystem_mcp_server.py),
  * the gitlab MCP server handlers (src/mcp_gitlab/gitlab_mcp.py),
  * the module-level registration order of the three server scripts,
and, for the components the repository delegates to the imported MCP framework
(Tool Registry, Dispatcher, Codec), models written from the specification text.

Python strings are modelled as Lean `String`, Python `dict`/`list` results as
the `PyVal` type, raised Python exceptions as the `error` side of
`Except PyExc _`, and the pieces of the outside world a handler touches
(filesystem contents, git library calls, subprocesses) as explicit state or
oracle records, so every handler is a total function of its arguments and that
state.
-/

/-! ## Models of the Python string primitives used by the source -/

/-- Character-list worker for `pyReplace`; the fuel argument (initialised to
the length of the text) makes the recursion structural, so it reduces in the
kernel. -/
def replaceLoop : Nat → List Char → List Char → List Char → List Char
  | 0, cs, _, _ => cs
  | _ + 1, [], _, _ => []
  | f + 1, c :: cs, pat, repl =>
    if pat.isPrefixOf (c :: cs) then
      repl ++ replaceLoop f ((c :: cs).drop pat.length) pat repl
    else
      c :: replaceLoop f cs pat repl

/-- Model of Python `str.replace` for a non-empty pattern: replaces every
non-overlapping occurrence of `pat` in `s`, scanning left to right. -/
def pyReplace (s pat repl : String) : String :=
  String.mk (replaceLoop s.data.length s.data pat.data repl.data)

/-- Character-list worker for `pySplit`; fuel makes the recursion structural. -/
def splitLoop : Nat → List Char → List Char → List Char → List (List Char)
  | 0, cs, _, acc => [acc.reverse ++ cs]
  | _ + 1, [], _, acc => [acc.reverse]
  | f + 1, c :: cs, sep, acc =>
    if sep.isPrefixOf (c :: cs) then
      acc.reverse :: splitLoop f ((c :: cs).drop sep.length) sep []
    else
      splitLoop f cs sep (c :: acc)

/-- Model of Python `str.split(sep)` for a non-empty separator. -/
def pySplit (s sep : String) : List String :=
  (splitLoop s.data.length s.data sep.data []).map String.mk

/-- Join a list of strings with a separator (Python `sep.join`), written
structurally so it reduces in the kernel. -/
def joinSep (sep : String) : List String → String
  | [] => ""
  | [s] => s
  | s :: tl => s ++ sep ++ joinSep sep tl

/-! ## Model of `json.dumps` for the flat objects built by the handlers -/

/-- JSON values appearing in the handlers' flat result objects: strings and
natural-number sizes/counts. -/
inductive JVal
  | jstr (s : String)
  | jnum (n : Nat)
deriving DecidableEq

/-- Escape a character sequence as a JSON string body (the source's strings
only need backslash and double-quote escapes). -/
def jsonEscapeList : List Char → List Char
  | [] => []
  | c :: cs =>
    if c = '\\' then '\\' :: '\\' :: jsonEscapeList cs
    else if c = '"' then '\\' :: '"' :: jsonEscapeList cs
    else c :: jsonEscapeList cs

/-- Escape a string for inclusion in a JSON string literal. -/
def jsonEscape (s : String) : String := String.mk (jsonEscapeList s.data)

/-- Render one JSON value. -/
def JVal.render : JVal → String
  | .jstr s => "\"" ++ jsonEscape s ++ "\""
  | .jnum n => toString n

/-- Model of `json.dumps(obj)` for a flat object, with Python's default
separators (", " between items and ": " after keys). -/
def jsonDumps (kvs : List (String × JVal)) : String :=
  "\x7b" ++ joinSep ", " (kvs.map (fun kv => "\"" ++ jsonEscape kv.1 ++ "\": " ++ kv.2.render)) ++ "\x7d"

/-- Model of `json.dumps(obj, indent=2)` for a flat object. -/
def jsonDumpsIndent2 (kvs : List (String × JVal)) : String :=
  "\x7b\n" ++ joinSep ",\n" (kvs.map (fun kv => "  \"" ++ jsonEscape kv.1 ++ "\": " ++ kv.2.render)) ++ "\n\x7d"

/-! ## Model of the Python exception and value types crossing handler bodies -/

/-- The Python exception kinds that appear in the embedded handlers.
`exception` is the generic `Exception(msg)`; the others keep the raising
library's type so that catching clauses can be modelled faithfully. -/
inductive PyExc
  | exception (msg : String)
  | valueError (msg : String)
  | indexError
  | fileNotFoundError (msg : String)
  | isADirectoryError (msg : String)
  | unicodeDecodeError (msg : String)
  | calledProcessError (stderr : String)
deriving DecidableEq

/-- Model of Python `str(e)` on an exception value.  For
`CalledProcessError` the source never calls `str(e)` (it reads `e.stderr`
directly), so the stderr payload stands in for the text. -/
def pyStr : PyExc → String
  | .exception m => m
  | .valueError m => m
  | .indexError => "list index out of range"
  | .fileNotFoundError m => m
  | .isADirectoryError m => m
  | .unicodeDecodeError m => m
  | .calledProcessError st => st

/-- Structured Python values a handler can return: strings, numbers,
booleans, None, lists and dicts. -/
inductive PyVal
  | pstr (s : String)
  | pint (n : Int)
  | pbool (b : Bool)
  | pnone
  | plist (l : List PyVal)
  | pdict (l : List (String × PyVal))

/-- Whether a Python value is a dict. -/
def PyVal.isDict : PyVal → Bool
  | .pdict _ => true
  | _ => false

/-- Whether a Python value is a string. -/
def PyVal.isStr : PyVal → Bool
  | .pstr _ => true
  | _ => false

/-! ## Filesystem state model for src/mcp_basics/filesystem_mcp_server.py -/

/-- A filesystem entry: a regular file with its text content and a flag
recording whether the bytes decode as UTF-8 (`textOk = false` models a file
whose `read` raises `UnicodeDecodeError`), or a directory. -/
inductive FsEntry
  | file (content : String) (textOk : Bool)
  | dir
deriving DecidableEq

/-- The filesystem state a handler invocation sees: a path-indexed list of
entries (the first binding for a path wins) and the process working
directory, which `os.path.abspath` consults. -/
structure FsState where
  entries : List (String × FsEntry)
  cwd : String
deriving DecidableEq

/-- Look up the entry stored at a path. -/
def lookupEntry (fs : FsState) (p : String) : Option FsEntry :=
  (fs.entries.find? (fun kv => kv.1 == p)).map (fun kv => kv.2)

/-- Model of `os.path.exists`. -/
def osPathExists (fs : FsState) (p : String) : Bool :=
  (lookupEntry fs p).isSome

/-- Model of `os.path.isfile`. -/
def osPathIsFile (fs : FsState) (p : String) : Bool :=
  match lookupEntry fs p with
  | some (.file _ _) => true
  | _ => false

/-- Model of `os.path.abspath`: absolute paths are returned unchanged,
relative ones are resolved against the working directory. -/
def osPathAbspath (fs : FsState) (p : String) : String :=
  match p.data with
  | '/' :: _ => p
  | _ => fs.cwd ++ "/" ++ p

/-- Model of `os.path.dirname` (POSIX): the part of the path before the last
separator. -/
def osPathDirname (p : String) : String :=
  let parts := pySplit p "/"
  if parts.length ≤ 1 then ""
  else
    let head := joinSep "/" parts.dropLast
    if head = "" then "/" else head

/-- Model of `os.path.getsize` on the model state: the length of the stored
content (0 for directories, matching that the source only calls it on
files just written or read). -/
def osPathGetsize (fs : FsState) (p : String) : Nat :=
  match lookupEntry fs p with
  | some (.file c _) => c.length
  | _ => 0

/-- Model of `os.makedirs`: records the directory entry. -/
def osMakedirs (fs : FsState) (p : String) : FsState :=
  ⟨(p, FsEntry.dir) :: fs.entries, fs.cwd⟩

/-- Store an entry at a path (newest binding shadows older ones). -/
def setEntry (fs : FsState) (p : String) (e : FsEntry) : FsState :=
  ⟨(p, e) :: fs.entries, fs.cwd⟩

/-- Model of `open(path, 'r').read()`: fails with `FileNotFoundError` when
the path is absent, `IsADirectoryError` on a directory, and
`UnicodeDecodeError` when the stored bytes are not text. -/
def fsOpenRead (fs : FsState) (path : String) : Except PyExc String :=
  match lookupEntry fs path with
  | none => .error (.fileNotFoundError ("[Errno 2] No such file or directory: '" ++ path ++ "'"))
  | some .dir => .error (.isADirectoryError ("[Errno 21] Is a directory: '" ++ path ++ "'"))
  | some (.file c true) => .ok c
  | some (.file _ false) => .error (.unicodeDecodeError "invalid start byte")

/-- Model of `open(path, mode).write(content)` for modes `'w'` and `'a'`:
fails with `IsADirectoryError` on a directory, truncates for `'w'`, appends
for `'a'` (appending keeps the old bytes, so a non-text file stays
non-text), and creates the file otherwise. -/
def fsOpenWrite (fs : FsState) (path content mode : String) : Except PyExc FsState :=
  match lookupEntry fs path with
  | some .dir => .error (.isADirectoryError ("[Errno 21] Is a directory: '" ++ path ++ "'"))
  | some (.file old oldOk) =>
    if mode == "a" then .ok (setEntry fs path (.file (old ++ content) oldOk))
    else .ok (setEntry fs path (.file content true))
  | none => .ok (setEntry fs path (.file content true))

namespace FilesystemServer

/-- Embedding of `read_file` from src/mcp_basics/filesystem_mcp_server.py
(lines 50-81).  The source's guards (`os.path.exists`, `os.path.isfile`),
the inner `try` that catches only `UnicodeDecodeError`, and the outer
`except Exception` that serializes any other fault all appear in order;
every outcome is a JSON string returned to the caller. -/
def read_file (path : String) (fs : FsState) : String :=
  if !osPathExists fs path then
    jsonDumps [("error", .jstr ("File '" ++ path ++ "' does not exist."))]
  else if !osPathIsFile fs path then
    jsonDumps [("error", .jstr ("Path '" ++ path ++ "' is not a file."))]
  else
    match fsOpenRead fs path with
    | .ok content =>
      jsonDumpsIndent2
        [("path", .jstr (osPathAbspath fs path)),
         ("content", .jstr content),
         ("size", .jnum (osPathGetsize fs path))]
    | .error (.unicodeDecodeError _) =>
      jsonDumps [("error", .jstr ("File '" ++ path ++ "' is not a text file or has an unsupported encoding."))]
    | .error e =>
      jsonDumps [("error", .jstr ("An error occurred: " ++ pyStr e))]

/-- Embedding of `write_file` from src/mcp_basics/filesystem_mcp_server.py
(lines 83-115).  The mode guard runs first and returns an error object
before any filesystem access; otherwise the parent directory is created if
needed, the file is opened and written, and a success object (or the outer
`except Exception` serialization) is returned together with the updated
filesystem state. -/
def write_file (path content mode : String) (fs : FsState) : String × FsState :=
  if !(mode == "w" || mode == "a") then
    (jsonDumps [("error", .jstr ("Invalid mode '" ++ mode ++ "'. Use 'w' for overwrite or 'a' for append."))], fs)
  else
    let directory := osPathDirname path
    let fs1 := if directory != "" && !osPathExists fs directory then osMakedirs fs directory else fs
    match fsOpenWrite fs1 path content mode with
    | .error e =>
      (jsonDumps [("error", .jstr ("An error occurred: " ++ pyStr e))], fs1)
    | .ok fs2 =>
      (jsonDumpsIndent2
        [("status", .jstr "success"),
         ("path", .jstr (osPathAbspath fs2 path)),
         ("message", .jstr ("Content " ++ (if mode == "a" then "appended to" else "written to") ++ " file successfully.")),
         ("size", .jnum (osPathGetsize fs2 path))], fs2)

end FilesystemServer

/-! ## Embedding of src/mcp_gitlab/gitlab_mcp.py -/

/-- The external world a gitlab handler invocation touches: the module
configuration read from the environment (`TEMP_DIR`, `GITLAB_TOKEN`) and
oracles for the filesystem checks, the GitPython library calls and the
subprocess runner the handlers wrap.  Each oracle returns `Except PyExc _`
because the wrapped library call may raise. -/
structure GitEnv where
  tempDir : String
  gitlabToken : Option String
  dirExists : String → Bool
  fileExists : String → Bool
  readText : String → Except PyExc String
  pull : String → Except PyExc Unit
  cloneFrom : String → String → Except PyExc Unit
  activeBranch : String → Except PyExc String
  run : List String → String → Except PyExc (String × String)

/-- Embedding of `get_repo_dir` (gitlab_mcp.py lines 41-61):
`repo_url.split("/")[-1].replace(".git", "")` joined under `TEMP_DIR`.
Note `.replace` removes every occurrence of `.git`, not just a suffix. -/
def get_repo_dir (tempDir repo_url : String) : String :=
  let repo_name := pyReplace ((pySplit repo_url "/").getLastD "") ".git" ""
  tempDir ++ "/" ++ repo_name

namespace GitlabServer

/-- Embedding of `clone_repository` (gitlab_mcp.py lines 63-117).  The whole
body is a `try` whose faults are re-raised as `Exception("Failed to clone
repository: " + str(e))`; inside it the token rewrite
`f"{parts[0]}://oauth2:{token}@{parts[1]}"` runs when `use_token` is set and
a token is configured (raising `IndexError` if the URL has no `://`), then
the directory decides between `pull` (action `updated`) and `clone_from`
(action `cloned`); a success returns a dict. -/
def clone_repository (env : GitEnv) (repo_url : String) (use_token : Bool) : Except PyExc PyVal :=
  let body : Except PyExc PyVal :=
    let repo_dir := get_repo_dir env.tempDir repo_url
    let urlRes : Except PyExc String :=
      if use_token && env.gitlabToken.isSome then
        match pySplit repo_url "://" with
        | p0 :: p1 :: _ => .ok (p0 ++ "://oauth2:" ++ env.gitlabToken.getD "" ++ "@" ++ p1)
        | _ => .error .indexError
      else .ok repo_url
    match urlRes with
    | .error e => .error e
    | .ok url =>
      if env.dirExists repo_dir then
        match env.pull repo_dir with
        | .error e => .error e
        | .ok _ =>
          match env.activeBranch repo_dir with
          | .error e => .error e
          | .ok branch =>
            .ok (.pdict [("status", .pstr "success"), ("action", .pstr "updated"),
                         ("path", .pstr repo_dir), ("branch", .pstr branch)])
      else
        match env.cloneFrom url repo_dir with
        | .error e => .error e
        | .ok _ =>
          match env.activeBranch repo_dir with
          | .error e => .error e
          | .ok branch =>
            .ok (.pdict [("status", .pstr "success"), ("action", .pstr "cloned"),
                         ("path", .pstr repo_dir), ("branch", .pstr branch)])
  match body with
  | .error e => .error (.exception ("Failed to clone repository: " ++ pyStr e))
  | .ok v => .ok v

/-- Embedding of `read_file` (gitlab_mcp.py lines 271-306).  The
repository-missing guard raises `Exception` before the `try`; inside the
`try`, a missing file raises `FileNotFoundError` and `read_text` may raise;
`except Exception` re-raises everything as `Exception("Failed to read
file: " + str(e))`.  No error path returns a value. -/
def read_file (env : GitEnv) (repo_url file_path : String) : Except PyExc String :=
  let repo_dir := get_repo_dir env.tempDir repo_url
  if !env.dirExists repo_dir then .error (.exception "Repository not found. Clone it first.")
  else
    let body : Except PyExc String :=
      let full_path := repo_dir ++ "/" ++ file_path
      if !env.fileExists full_path then
        .error (.fileNotFoundError ("File not found: " ++ file_path))
      else env.readText full_path
    match body with
    | .error e => .error (.exception ("Failed to read file: " ++ pyStr e))
    | .ok s => .ok s

/-- Embedding of `execute_git_command` (gitlab_mcp.py lines 215-269).  The
guard `command[0] == "git"` indexes before checking non-emptiness, so an
empty command raises `IndexError` inside the `try`; the sole `except`
clause catches only `subprocess.CalledProcessError`, so `IndexError` and
the `ValueError` guard escape the handler unwrapped. -/
def execute_git_command (env : GitEnv) (repo_url : String) (command : List String) : Except PyExc PyVal :=
  let repo_dir := get_repo_dir env.tempDir repo_url
  if !env.dirExists repo_dir then .error (.exception "Repository not found. Clone it first.")
  else
    let body : Except PyExc PyVal :=
      match command with
      | [] => .error .indexError
      | c0 :: _ =>
        if !(c0 == "git") then .error (.valueError "Only git commands are allowed")
        else
          match env.run command repo_dir with
          | .ok (out, err) =>
            .ok (.pdict [("status", .pstr "success"), ("stdout", .pstr out), ("stderr", .pstr err)])
          | .error e => .error e
    match body with
    | .error (.calledProcessError st) => .error (.exception ("Git command failed: " ++ st))
    | other => other

end GitlabServer

/-! ## Module-level registration order of the three server scripts -/

/-- A top-level event of a server module: a `@mcp.tool()` decorator
application (which registers the decorated handler at import time) or the
`mcp.run(transport="stdio")` call that starts serving. -/
inductive ModEvent
  | register (name : String)
  | runServer
deriving DecidableEq

/-- Whether an event is a registration. -/
def isRegister : ModEvent → Bool
  | .register _ => true
  | .runServer => false

/-- The names registered by a module event sequence, in order. -/
def registeredNames : List ModEvent → List String
  | [] => []
  | .register n :: tl => n :: registeredNames tl
  | .runServer :: tl => registeredNames tl

/-- Whether no registration event occurs at or after the first server
start. -/
def noRegisterAfterRun : List ModEvent → Bool
  | [] => true
  | .register _ :: tl => noRegisterAfterRun tl
  | .runServer :: tl => tl.all (fun e => !isRegister e)

/-- Top-level events of src/mcp_basics/filesystem_mcp_server.py, in source
order: six `@mcp.tool()` registrations, then `mcp.run` under the
`__main__` guard at line 216. -/
def filesystemServerEvents : List ModEvent :=
  [.register "list_directory", .register "read_file", .register "write_file",
   .register "file_info", .register "create_directory", .register "delete_item",
   .runServer]

/-- Top-level events of src/mcp_basics/finance_mcp_server.py: one
registration, then `mcp.run` at line 69. -/
def financeServerEvents : List ModEvent :=
  [.register "get_financial_statements", .runServer]

/-- Top-level events of src/mcp_gitlab/gitlab_mcp.py: five registrations,
then `mcp.run` at line 381. -/
def gitlabServerEvents : List ModEvent :=
  [.register "clone_repository", .register "analyze_repository",
   .register "execute_git_command", .register "read_file", .register "write_file",
   .runServer]

/-! ## Tool Registry, modelled from the spec (not implemented in src) -/

/-- Modelled from the spec: a Tool Descriptor
`{name, input_schema, output_schema, handler reference}` (spec section 3);
the schemas are structural type descriptions and the handler a reference,
both held abstractly as data. -/
structure Descriptor where
  name : String
  inputSchema : String
  outputSchema : String
  handlerId : Nat
deriving DecidableEq

/-- Modelled from the spec: the Tool Registry error taxonomy of section
4.1 (`DuplicateNameError`, `UnknownToolError`). -/
inductive RegistryError
  | DuplicateNameError
  | UnknownToolError
deriving DecidableEq

/-- Modelled from the spec: the Tool Registry keeps descriptors in
registration order (section 4.1 `list` is sorted by registration order). -/
abbrev Registry := List Descriptor

/-- Modelled from the spec: `register(descriptor)` fails with
`DuplicateNameError` if the name is already present, otherwise appends the
descriptor (section 4.1). -/
def registerTool (r : Registry) (d : Descriptor) : Except RegistryError Registry :=
  if r.any (fun x => x.name == d.name) then .error .DuplicateNameError
  else .ok (r ++ [d])

/-- Modelled from the spec: `lookup(name)` returns the descriptor or fails
with `UnknownToolError` (section 4.1). -/
def lookupTool (r : Registry) (n : String) : Except RegistryError Descriptor :=
  match r.find? (fun d => d.name == n) with
  | some d => .ok d
  | none => .error .UnknownToolError

/-! ## Dispatcher response correlation, modelled from the spec -/

/-- Modelled from the spec: a Request carries a correlation id and a tool
name (section 3; arguments are irrelevant to the correlation property). -/
structure Request where
  cid : Nat
  tool : String
deriving DecidableEq

/-- Modelled from the spec: the outcome of one call — success, typed
failure, or cancellation (sections 3 and 4.2). -/
inductive DOutcome
  | success (msg : String)
  | failure (kind : String) (msg : String)
  | cancelled

/-- Modelled from the spec: a Response pairs the originating request's
correlation id with an outcome (section 3). -/
structure Response where
  cid : Nat
  outcome : DOutcome

/-- Modelled from the spec: a connection's dispatcher run.  Each accepted
request is driven to completion by the handler outcome function and
answered with a response tagged with its correlation id; if the transport
is torn down after `n` requests (`closeAt = some n`), the remaining
requests are never accepted and the connection is reported closed
(section 3 invariants, section 4.2). -/
def runConn (reqs : List Request) (handle : Request → DOutcome) (closeAt : Option Nat) :
    List Response × Bool :=
  match closeAt with
  | none => (reqs.map (fun r => ⟨r.cid, handle r⟩), false)
  | some n => ((reqs.take n).map (fun r => ⟨r.cid, handle r⟩), true)

/-! ## Message Codec, modelled from the spec -/

/-- Modelled from the spec: the representable structured values — scalars,
binary blobs, arbitrarily nested sequences and string-keyed maps (section
4.4, section 6). -/
inductive SVal
  | snull
  | sbool (b : Bool)
  | sint (n : Int)
  | sstr (s : String)
  | sblob (bs : List Nat)
  | sseq (l : List SVal)
  | smap (l : List (String × SVal))

/-- Modelled from the spec: wire tokens of one frame; composites are
length-prefixed (section 4.4). -/
inductive Tok
  | tnull
  | tbool (b : Bool)
  | tint (n : Int)
  | tstr (s : String)
  | tblob (bs : List Nat)
  | tseq (n : Nat)
  | tmap (n : Nat)
deriving DecidableEq

mutual
/-- Modelled from the spec: encode one structured value as a token
sequence. -/
def encodeV : SVal → List Tok
  | .snull => [.tnull]
  | .sbool b => [.tbool b]
  | .sint n => [.tint n]
  | .sstr s => [.tstr s]
  | .sblob bs => [.tblob bs]
  | .sseq l => .tseq l.length :: encodeL l
  | .smap l => .tmap l.length :: encodeE l

/-- Encode a list of values in order. -/
def encodeL : List SVal → List Tok
  | [] => []
  | v :: tl => encodeV v ++ encodeL tl

/-- Encode map entries as alternating key tokens and encoded values. -/
def encodeE : List (String × SVal) → List Tok
  | [] => []
  | (k, v) :: tl => .tstr k :: (encodeV v ++ encodeE tl)
end

mutual
/-- Decoding fuel needed for one value. -/
def svalSize : SVal → Nat
  | .sseq l => 1 + listSize l
  | .smap l => 1 + entriesSize l
  | _ => 1

/-- Decoding fuel needed for a value list. -/
def listSize : List SVal → Nat
  | [] => 0
  | v :: tl => 1 + svalSize v + listSize tl

/-- Decoding fuel needed for map entries. -/
def entriesSize : List (String × SVal) → Nat
  | [] => 0
  | (_, v) :: tl => 1 + svalSize v + entriesSize tl
end

mutual
/-- Modelled from the spec: decode one value from a token stream,
returning the remaining tokens; every recursive call consumes fuel, so the
recursion is structural. -/
def decodeV : Nat → List Tok → Option (SVal × List Tok)
  | 0, _ => none
  | _ + 1, [] => none
  | _ + 1, .tnull :: ts => some (.snull, ts)
  | _ + 1, .tbool b :: ts => some (.sbool b, ts)
  | _ + 1, .tint n :: ts => some (.sint n, ts)
  | _ + 1, .tstr s :: ts => some (.sstr s, ts)
  | _ + 1, .tblob bs :: ts => some (.sblob bs, ts)
  | f + 1, .tseq n :: ts =>
    match decodeL f n ts with
    | some (vs, r) => some (.sseq vs, r)
    | none => none
  | f + 1, .tmap n :: ts =>
    match decodeE f n ts with
    | some (es, r) => some (.smap es, r)
    | none => none

/-- Decode `n` consecutive values. -/
def decodeL : Nat → Nat → List Tok → Option (List SVal × List Tok)
  | _, 0, ts => some ([], ts)
  | 0, _ + 1, _ => none
  | f + 1, n + 1, ts =>
    match decodeV f ts with
    | some (v, ts1) =>
      match decodeL f n ts1 with
      | some (vs, r) => some (v :: vs, r)
      | none => none
    | none => none

/-- Decode `n` consecutive key/value entries. -/
def decodeE : Nat → Nat → List Tok → Option (List (String × SVal) × List Tok)
  | _, 0, ts => some ([], ts)
  | 0, _ + 1, _ => none
  | f + 1, n + 1, .tstr k :: ts =>
    match decodeV f ts with
    | some (v, ts1) =>
      match decodeE f n ts1 with
      | some (es, r) => some ((k, v) :: es, r)
      | none => none
    | none => none
  | _ + 1, _ + 1, _ => none
end

/-- Modelled from the spec: Codec encoding of one message payload. -/
def encode (v : SVal) : List Tok := encodeV v

/-- Modelled from the spec: Codec decoding of one frame; the fuel is
computed from the frame length and the whole frame must be consumed. -/
def decode (ts : List Tok) : Option SVal :=
  match decodeV (2 * ts.length + 1) ts with
  | some (v, []) => some v
  | _ => none

/-! ## Concrete states and environments used by the closed theorems -/

/-- A gitlab environment in which the repository directory exists but no
file does: reads hit the missing-file path, subprocesses succeed. -/
def envRepoNoFile : GitEnv :=
  ⟨"/tmp/mcp-git-analysis", none,
   fun _ => true, fun _ => false,
   fun _ => .ok "", fun _ => .ok (), fun _ _ => .ok (), fun _ => .ok "main",
   fun _ _ => .ok ("", "")⟩

/-- A gitlab environment with no local clone and a git library whose clone
and branch queries succeed: `clone_repository` takes the `cloned` path. -/
def envFreshClone : GitEnv :=
  ⟨"/tmp/mcp-git-analysis", none,
   fun _ => false, fun _ => false,
   fun _ => .ok "", fun _ => .ok (), fun _ _ => .ok (), fun _ => .ok "main",
   fun _ _ => .ok ("", "")⟩

/-- A filesystem in which nothing exists. -/
def fsEmpty : FsState := ⟨[], "/home/user"⟩

/-- A filesystem in which `notes.txt` is a text file reading `hello`. -/
def fsWithNotes : FsState := ⟨[("notes.txt", FsEntry.file "hello" true)], "/home/user"⟩

/-- The first of two distinct repository URLs that collide in
`get_repo_dir`. -/
def collideUrlA : String := "https://gitlab.com/alice/project.git"

/-- The second colliding repository URL: a different namespace, same
project name. -/
def collideUrlB : String := "https://gitlab.com/bob/project.git"

/-! ## Auxiliary lemmas -/

theorem svalSize_pos (v : SVal) : 1 ≤ svalSize v := by
  cases v <;> simp [svalSize]

theorem roundtrip_aux : ∀ B : Nat,
    (∀ v : SVal, ∀ fuel rest, svalSize v ≤ B → svalSize v ≤ fuel →
      decodeV fuel (encodeV v ++ rest) = some (v, rest))
    ∧ (∀ l : List SVal, ∀ fuel rest, listSize l ≤ B → listSize l ≤ fuel →
      decodeL fuel l.length (encodeL l ++ rest) = some (l, rest))
    ∧ (∀ es : List (String × SVal), ∀ fuel rest, entriesSize es ≤ B → entriesSize es ≤ fuel →
      decodeE fuel es.length (encodeE es ++ rest) = some (es, rest)) := by
  intro B
  induction B with
  | zero =>
    refine ⟨fun v fuel rest hB _ => absurd (le_trans (svalSize_pos v) hB) (by simp), ?_, ?_⟩
    · intro l fuel rest hB _
      cases l with
      | nil => simp [encodeL, decodeL]
      | cons v tl => exact absurd hB (by simp [listSize])
    · intro es fuel rest hB _
      cases es with
      | nil => simp [encodeE, decodeE]
      | cons e tl =>
        obtain ⟨k, v⟩ := e
        exact absurd hB (by simp [entriesSize])
  | succ B ih =>
    have H1 : ∀ v : SVal, ∀ fuel rest, svalSize v ≤ B + 1 → svalSize v ≤ fuel →
        decodeV fuel (encodeV v ++ rest) = some (v, rest) := by
      intro v fuel rest hB hf
      match v with
      | .snull =>
        obtain ⟨f, rfl⟩ : ∃ f, fuel = f + 1 := ⟨fuel - 1, by have := hf; simp [svalSize] at this; omega⟩
        simp [encodeV, decodeV]
      | .sbool b =>
        obtain ⟨f, rfl⟩ : ∃ f, fuel = f + 1 := ⟨fuel - 1, by have := hf; simp [svalSize] at this; omega⟩
        simp [encodeV, decodeV]
      | .sint n =>
        obtain ⟨f, rfl⟩ : ∃ f, fuel = f + 1 := ⟨fuel - 1, by have := hf; simp [svalSize] at this; omega⟩
        simp [encodeV, decodeV]
      | .sstr s =>
        obtain ⟨f, rfl⟩ : ∃ f, fuel = f + 1 := ⟨fuel - 1, by have := hf; simp [svalSize] at this; omega⟩
        simp [encodeV, decodeV]
      | .sblob bs =>
        obtain ⟨f, rfl⟩ : ∃ f, fuel = f + 1 := ⟨fuel - 1, by have := hf; simp [svalSize] at this; omega⟩
        simp [encodeV, decodeV]
      | .sseq l =>
        have hsz : svalSize (SVal.sseq l) = 1 + listSize l := by simp [svalSize]
        rw [hsz] at hB hf
        obtain ⟨f, rfl⟩ : ∃ f, fuel = f + 1 := ⟨fuel - 1, by omega⟩
        have := ih.2.1 l f rest (by omega) (by omega)
        simp [encodeV, decodeV, List.cons_append, this]
      | .smap l =>
        have hsz : svalSize (SVal.smap l) = 1 + entriesSize l := by simp [svalSize]
        rw [hsz] at hB hf
        obtain ⟨f, rfl⟩ : ∃ f, fuel = f + 1 := ⟨fuel - 1, by omega⟩
        have := ih.2.2 l f rest (by omega) (by omega)
        simp [encodeV, decodeV, List.cons_append, this]
    refine ⟨H1, ?_, ?_⟩
    · intro l
      induction l with
      | nil => intro fuel rest _ _; simp [encodeL, decodeL]
      | cons v tl ihl =>
        intro fuel rest hB hf
        have hsz : listSize (v :: tl) = 1 + svalSize v + listSize tl := by simp [listSize]
        rw [hsz] at hB hf
        obtain ⟨f, rfl⟩ : ∃ f, fuel = f + 1 := ⟨fuel - 1, by omega⟩
        have h1 := H1 v f (encodeL tl ++ rest) (by omega) (by omega)
        have h2 := ihl f rest (by omega) (by omega)
        simp only [encodeL, List.append_assoc, List.length_cons]
        simp [decodeL, h1, h2]
    · intro es
      induction es with
      | nil => intro fuel rest _ _; simp [encodeE, decodeE]
      | cons e tl ihl =>
        obtain ⟨k, v⟩ := e
        intro fuel rest hB hf
        have hsz : entriesSize ((k, v) :: tl) = 1 + svalSize v + entriesSize tl := by
          simp [entriesSize]
        rw [hsz] at hB hf
        obtain ⟨f, rfl⟩ : ∃ f, fuel = f + 1 := ⟨fuel - 1, by omega⟩
        have h1 := H1 v f (encodeE tl ++ rest) (by omega) (by omega)
        have h2 := ihl f rest (by omega) (by omega)
        simp only [encodeE, List.append_assoc, List.length_cons, List.cons_append]
        simp [decodeE, h1, h2]

theorem encLen_aux : ∀ B : Nat,
    (∀ v : SVal, svalSize v ≤ B → svalSize v + 1 ≤ 2 * (encodeV v).length)
    ∧ (∀ l : List SVal, listSize l ≤ B → listSize l ≤ 2 * (encodeL l).length)
    ∧ (∀ es : List (String × SVal), entriesSize es ≤ B → entriesSize es ≤ 2 * (encodeE es).length) := by
  intro B
  induction B with
  | zero =>
    refine ⟨fun v hB => absurd (le_trans (svalSize_pos v) hB) (by simp), ?_, ?_⟩
    · intro l hB
      cases l with
      | nil => simp [listSize]
      | cons v tl => exact absurd hB (by simp [listSize])
    · intro es hB
      cases es with
      | nil => simp [entriesSize]
      | cons e tl =>
        obtain ⟨k, v⟩ := e
        exact absurd hB (by simp [entriesSize])
  | succ B ih =>
    have H1 : ∀ v : SVal, svalSize v ≤ B + 1 → svalSize v + 1 ≤ 2 * (encodeV v).length := by
      intro v hB
      match v with
      | .snull => simp [svalSize, encodeV]
      | .sbool b => simp [svalSize, encodeV]
      | .sint n => simp [svalSize, encodeV]
      | .sstr s => simp [svalSize, encodeV]
      | .sblob bs => simp [svalSize, encodeV]
      | .sseq l =>
        have hsz : svalSize (SVal.sseq l) = 1 + listSize l := by simp [svalSize]
        rw [hsz] at hB ⊢
        have := ih.2.1 l (by omega)
        simp only [encodeV, List.length_cons]
        omega
      | .smap l =>
        have hsz : svalSize (SVal.smap l) = 1 + entriesSize l := by simp [svalSize]
        rw [hsz] at hB ⊢
        have := ih.2.2 l (by omega)
        simp only [encodeV, List.length_cons]
        omega
    refine ⟨H1, ?_, ?_⟩
    · intro l
      induction l with
      | nil => intro _; simp [listSize]
      | cons v tl ihl =>
        intro hB
        have hsz : listSize (v :: tl) = 1 + svalSize v + listSize tl := by simp [listSize]
        rw [hsz] at hB ⊢
        have h1 := H1 v (by omega)
        have h2 := ihl (by omega)
        simp only [encodeL, List.length_append]
        omega
    · intro es
      induction es with
      | nil => intro _; simp [entriesSize]
      | cons e tl ihl =>
        obtain ⟨k, v⟩ := e
        intro hB
        have hsz : entriesSize ((k, v) :: tl) = 1 + svalSize v + entriesSize tl := by
          simp [entriesSize]
        rw [hsz] at hB ⊢
        have h1 := H1 v (by omega)
        have h2 := ihl (by omega)
        simp only [encodeE, List.length_cons, List.length_append]
        omega

/-- C7: Round-trip: decoding the result of encoding any representable
structured value (arbitrarily nested maps, sequences, scalars, binary
blobs) via the Codec yields the original value. -/
theorem c7_codec_round_trip : ∀ v : SVal, decode (encode v) = some v := by
  intro v
  have hlen := (encLen_aux (svalSize v)).1 v le_rfl
  have h := (roundtrip_aux (svalSize v)).1 v (2 * (encodeV v).length + 1) [] le_rfl (by omega)
  rw [List.append_nil] at h
  simp only [decode, encode, h]

theorem find?_append_self (r : Registry) (d : Descriptor)
    (h : r.any (fun x => x.name == d.name) = false) :
    (r ++ [d]).find? (fun x => x.name == d.name) = some d := by
  induction r with
  | nil => simp
  | cons a tl ih =>
    simp only [List.any_cons, Bool.or_eq_false_iff] at h
    simp only [List.cons_append, List.find?_cons, h.1]
    exact ih h.2

/-- C5: spec-modelled Tool Registry: looking a name up after registering a
descriptor under that name returns the same descriptor, and registering a
second descriptor under an already-present name fails with
`DuplicateNameError` (the failing `register` returns no new registry, so
the registry value is unchanged). -/
theorem c5_register_lookup (r : Registry) (d : Descriptor) :
    (∀ r2, registerTool r d = .ok r2 → lookupTool r2 d.name = .ok d)
    ∧ (r.any (fun x => x.name == d.name) = true →
        registerTool r d = .error .DuplicateNameError) := by
  constructor
  · intro r2 h
    cases hany : r.any (fun x => x.name == d.name) with
    | true => simp [registerTool, hany] at h
    | false =>
      simp only [registerTool, hany, Bool.false_eq_true, if_false] at h
      obtain rfl : r ++ [d] = r2 := by
        injection h
      simp only [lookupTool, find?_append_self r d hany]
  · intro hany
    simp [registerTool, hany]

/-- C5 witness: registering `echo` in the empty registry then looking it up
returns the descriptor, and re-registering it fails with
`DuplicateNameError`. -/
theorem c5_register_lookup_witness :
    lookupTool [Descriptor.mk "echo" "object" "object" 0] "echo"
        = .ok (Descriptor.mk "echo" "object" "object" 0)
    ∧ registerTool [Descriptor.mk "echo" "object" "object" 0]
        (Descriptor.mk "echo" "object" "object" 0)
        = .error .DuplicateNameError :=
  ⟨(c5_register_lookup [] (Descriptor.mk "echo" "object" "object" 0)).1
      [Descriptor.mk "echo" "object" "object" 0] rfl,
   (c5_register_lookup [Descriptor.mk "echo" "object" "object" 0]
      (Descriptor.mk "echo" "object" "object" 0)).2 (by decide)⟩

theorem length_filter_map_comp {α β : Type} (l : List α) (f : α → β) (p : β → Bool) :
    ((l.map f).filter p).length = (l.filter (fun a => p (f a))).length := by
  induction l with
  | nil => rfl
  | cons a tl ih =>
    cases h : p (f a) <;> simp [List.filter_cons, h, ih]

theorem length_filter_beq_le_one {l : List Nat} {c : Nat} (h : l.Nodup) :
    (l.filter (fun x => x == c)).length ≤ 1 := by
  induction l with
  | nil => simp
  | cons a tl ih =>
    rw [List.nodup_cons] at h
    cases hac : (a == c) with
    | false =>
      simp only [List.filter_cons, hac]
      exact ih h.2
    | true =>
      obtain rfl : a = c := by simpa using hac
      have hnil : tl.filter (fun x => x == a) = [] := by
        rw [List.filter_eq_nil_iff]
        intro x hx hxc
        exact h.1 (by simpa using (eq_of_beq hxc) ▸ hx)
      simp [List.filter_cons, hac, hnil]

theorem length_filter_beq_eq_one {l : List Nat} {c : Nat} (h : l.Nodup) (hm : c ∈ l) :
    (l.filter (fun x => x == c)).length = 1 := by
  induction l with
  | nil => simp at hm
  | cons a tl ih =>
    rw [List.nodup_cons] at h
    cases hac : (a == c) with
    | false =>
      have hne : a ≠ c := by simpa using hac
      have hmt : c ∈ tl := by
        cases hm with
        | head => exact absurd rfl hne
        | tail _ hmt => exact hmt
      simp only [List.filter_cons, hac]
      exact ih h.2 hmt
    | true =>
      obtain rfl : a = c := by simpa using hac
      have hnil : tl.filter (fun x => x == a) = [] := by
        rw [List.filter_eq_nil_iff]
        intro x hx hxc
        exact h.1 (by simpa using (eq_of_beq hxc) ▸ hx)
      simp [List.filter_cons, hac, hnil]

/-- C6: spec-modelled Dispatcher correlation: for every accepted request on
a connection, the response list of a dispatcher run contains exactly one
response carrying that request's correlation id — never more than one, and
exactly one unless the connection was torn down first, in which case the
caller observes the connection reported closed. -/
theorem c6_exactly_one_response (reqs : List Request) (handle : Request → DOutcome)
    (closeAt : Option Nat) (r : Request)
    (hnd : (reqs.map Request.cid).Nodup) (hmem : r ∈ reqs) :
    (((runConn reqs handle closeAt).1.filter (fun p => p.cid == r.cid)).length ≤ 1)
    ∧ ((((runConn reqs handle closeAt).1.filter (fun p => p.cid == r.cid)).length = 1)
        ∨ (runConn reqs handle closeAt).2 = true) := by
  cases closeAt with
  | none =>
    have hcnt : ((reqs.map (fun q => Response.mk q.cid (handle q))).filter
        (fun p => p.cid == r.cid)).length
        = ((reqs.map Request.cid).filter (fun x => x == r.cid)).length := by
      rw [length_filter_map_comp, length_filter_map_comp]
    have hone : ((reqs.map Request.cid).filter (fun x => x == r.cid)).length = 1 :=
      length_filter_beq_eq_one hnd (List.mem_map_of_mem Request.cid hmem)
    constructor
    · simp only [runConn, hcnt, hone]
      omega
    · left
      simp only [runConn, hcnt, hone]
  | some n =>
    have hsub : (reqs.take n).map Request.cid = (reqs.map Request.cid).take n := by
      rw [List.map_take]
    have hndt : ((reqs.take n).map Request.cid).Nodup := by
      rw [hsub]
      exact hnd.sublist (List.take_sublist n (reqs.map Request.cid))
    have hcnt : (((reqs.take n).map (fun q => Response.mk q.cid (handle q))).filter
        (fun p => p.cid == r.cid)).length
        = (((reqs.take n).map Request.cid).filter (fun x => x == r.cid)).length := by
      rw [length_filter_map_comp, length_filter_map_comp]
    constructor
    · simp only [runConn, hcnt]
      exact length_filter_beq_le_one hndt
    · right
      simp [runConn]

/-- C6 witness: a two-request connection with distinct correlation ids,
never torn down: the request with id 1 gets exactly one response. -/
theorem c6_exactly_one_response_witness :
    (((runConn [Request.mk 1 "echo", Request.mk 2 "ghost"]
        (fun q => if q.tool == "echo" then .success "ok" else .failure "UnknownToolError" "no such tool")
        none).1.filter (fun p => p.cid == 1)).length ≤ 1)
    ∧ ((((runConn [Request.mk 1 "echo", Request.mk 2 "ghost"]
        (fun q => if q.tool == "echo" then .success "ok" else .failure "UnknownToolError" "no such tool")
        none).1.filter (fun p => p.cid == 1)).length = 1)
        ∨ (runConn [Request.mk 1 "echo", Request.mk 2 "ghost"]
            (fun q => if q.tool == "echo" then .success "ok" else .failure "UnknownToolError" "no such tool")
            none).2 = true) :=
  c6_exactly_one_response [Request.mk 1 "echo", Request.mk 2 "ghost"]
    (fun q => if q.tool == "echo" then .success "ok" else .failure "UnknownToolError" "no such tool")
    none (Request.mk 1 "echo") (by decide) (by decide)

/-- C4: in each server source file every handler registration happens at
module initialization, strictly before the `mcp.run` call that starts the
server loop: no registration event follows the server start, the server
start is present (and last), and no name is registered twice. -/
theorem c4_registrations_before_run :
    (noRegisterAfterRun filesystemServerEvents = true
      ∧ (registeredNames filesystemServerEvents).Nodup
      ∧ ModEvent.runServer ∈ filesystemServerEvents)
    ∧ (noRegisterAfterRun financeServerEvents = true
      ∧ (registeredNames financeServerEvents).Nodup
      ∧ ModEvent.runServer ∈ financeServerEvents)
    ∧ (noRegisterAfterRun gitlabServerEvents = true
      ∧ (registeredNames gitlabServerEvents).Nodup
      ∧ ModEvent.runServer ∈ gitlabServerEvents) := by
  refine ⟨⟨by decide, by decide, by decide⟩, ⟨by decide, by decide, by decide⟩,
    ⟨by decide, by decide, by decide⟩⟩

/-- C8: the gitlab server's repository-to-directory mapping is not
injective: two distinct URLs (same project name, different namespace) get
the same local directory under any temp directory, and `read_file` and
`execute_git_command` therefore behave identically for the two URLs in
every environment — a call with one URL operates on the clone belonging to
the other. -/
theorem c8_repo_dir_collision :
    collideUrlA ≠ collideUrlB
    ∧ (∀ td, get_repo_dir td collideUrlA = get_repo_dir td collideUrlB)
    ∧ (∀ env p, GitlabServer.read_file env collideUrlA p
        = GitlabServer.read_file env collideUrlB p)
    ∧ (∀ env cmd, GitlabServer.execute_git_command env collideUrlA cmd
        = GitlabServer.execute_git_command env collideUrlB cmd) := by
  have hname : pyReplace ((pySplit collideUrlA "/").getLastD "") ".git" ""
      = pyReplace ((pySplit collideUrlB "/").getLastD "") ".git" "" := by decide
  refine ⟨by decide, ?_, ?_, ?_⟩
  · intro td
    simp only [get_repo_dir, hname]
  · intro env p
    simp only [GitlabServer.read_file, get_repo_dir, hname]
  · intro env cmd
    simp only [GitlabServer.execute_git_command, get_repo_dir, hname]

/-- C9: calling the filesystem server's `write_file` with a mode other than
`'w'` or `'a'` returns the invalid-mode JSON error object and leaves the
filesystem state completely unchanged: no directory is created and no file
is opened, truncated, or written. -/
theorem c9_write_file_invalid_mode (path content mode : String) (fs : FsState)
    (h1 : mode ≠ "w") (h2 : mode ≠ "a") :
    FilesystemServer.write_file path content mode fs
      = (jsonDumps [("error", .jstr ("Invalid mode '" ++ mode ++ "'. Use 'w' for overwrite or 'a' for append."))], fs) := by
  have hw : (mode == "w") = false := by simpa using h1
  have ha : (mode == "a") = false := by simpa using h2
  simp [FilesystemServer.write_file, hw, ha]

/-- C9 witness: writing with mode `'x'` on the empty filesystem returns the
error object and the unchanged state. -/
theorem c9_write_file_invalid_mode_witness :
    FilesystemServer.write_file "notes.txt" "hello" "x" fsEmpty
      = (jsonDumps [("error", .jstr ("Invalid mode '" ++ "x" ++ "'. Use 'w' for overwrite or 'a' for append."))], fsEmpty) :=
  c9_write_file_invalid_mode "notes.txt" "hello" "x" fsEmpty (by decide) (by decide)

/-- C10: calling the gitlab server's `execute_git_command` with an empty
command list, for a repository whose local directory exists, evaluates
`command[0]` before any emptiness check and raises `IndexError`; the sole
`except subprocess.CalledProcessError` clause does not catch it, so the
raw `IndexError` escapes the handler. -/
theorem c10_empty_command_index_error :
    GitlabServer.execute_git_command envRepoNoFile "https://gitlab.com/acme/widgets.git" []
      = .error .indexError := rfl

/-- C1 counterexample: the gitlab server's `read_file`, asked for a missing
file inside an existing clone, does not return error data — it raises
(`Except.error`) an `Exception` out of the handler body, refuting
"reported as structured error data ... in the returned value; no handler
ever propagates a raw exception out of its body". -/
theorem c1_counterexample :
    GitlabServer.read_file envRepoNoFile "https://gitlab.com/acme/widgets.git" "missing.txt"
      = .error (.exception "Failed to read file: File not found: missing.txt") := rfl

/-- C1 amended: in the gitlab server every fault of `read_file` is raised,
not returned, but always as a generic `Exception` carrying the original
message: every outcome is either a returned value or a raised
`PyExc.exception` — no raw library fault type (e.g. `FileNotFoundError`)
crosses the handler boundary. -/
theorem c1_gitlab_read_file_errors_wrapped (env : GitEnv) (repo_url file_path : String) :
    (∃ s, GitlabServer.read_file env repo_url file_path = .ok s)
    ∨ (∃ m, GitlabServer.read_file env repo_url file_path = .error (.exception m)) := by
  cases hdir : env.dirExists (get_repo_dir env.tempDir repo_url) with
  | false =>
    right
    exact ⟨"Repository not found. Clone it first.", by simp [GitlabServer.read_file, hdir]⟩
  | true =>
    cases hfile : env.fileExists (get_repo_dir env.tempDir repo_url ++ "/" ++ file_path) with
    | false =>
      right
      refine ⟨"Failed to read file: " ++ pyStr (.fileNotFoundError ("File not found: " ++ file_path)), ?_⟩
      simp [GitlabServer.read_file, hdir, hfile]
    | true =>
      cases hrt : env.readText (get_repo_dir env.tempDir repo_url ++ "/" ++ file_path) with
      | error e =>
        right
        exact ⟨"Failed to read file: " ++ pyStr e, by simp [GitlabServer.read_file, hdir, hfile, hrt]⟩
      | ok s =>
        left
        exact ⟨s, by simp [GitlabServer.read_file, hdir, hfile, hrt]⟩

/-- C2 counterexample: the gitlab server's `clone_repository` on a
successful fresh clone returns a dict, not a string, refuting "each
registered handler returns a string value ... never a structured in-memory
value such as a dictionary". -/
theorem c2_counterexample :
    GitlabServer.clone_repository envFreshClone "https://gitlab.com/acme/widgets.git" true
      = .ok (.pdict [("status", .pstr "success"), ("action", .pstr "cloned"),
                     ("path", .pstr "/tmp/mcp-git-analysis/widgets"), ("branch", .pstr "main")])
    ∧ PyVal.isStr (.pdict [("status", .pstr "success"), ("action", .pstr "cloned"),
                     ("path", .pstr "/tmp/mcp-git-analysis/widgets"), ("branch", .pstr "main")]) = false :=
  ⟨rfl, rfl⟩

/-- C2 amended: the mcp_basics handlers serialize results as JSON strings
(their embeddings return `String` by construction), but the gitlab
server's `clone_repository` returns a structured dictionary: every
successful result of `clone_repository` is a dict. -/
theorem c2_clone_repository_ok_is_dict (env : GitEnv) (repo_url : String) (use_token : Bool)
    (v : PyVal) (h : GitlabServer.clone_repository env repo_url use_token = .ok v) :
    v.isDict = true := by
  simp only [GitlabServer.clone_repository] at h
  split at h
  · exact absurd h (by simp)
  · rename_i w heq
    injection h with hv
    subst hv
    split at heq
    · exact absurd heq (by simp)
    · split at heq
      · split at heq
        · exact absurd heq (by simp)
        · split at heq
          · exact absurd heq (by simp)
          · injection heq with hw
            rw [← hw]
            rfl
      · split at heq
        · exact absurd heq (by simp)
        · split at heq
          · exact absurd heq (by simp)
          · injection heq with hw
            rw [← hw]
            rfl

/-- C2 witness: the dict returned by the successful concrete clone is
recognised as a dict. -/
theorem c2_clone_repository_ok_is_dict_witness :
    PyVal.isDict (.pdict [("status", .pstr "success"), ("action", .pstr "cloned"),
      ("path", .pstr "/tmp/mcp-git-analysis/widgets"), ("branch", .pstr "main")]) = true :=
  c2_clone_repository_ok_is_dict envFreshClone "https://gitlab.com/acme/widgets.git" true _ rfl

/-- C3 counterexample: the filesystem server's `read_file`, invoked twice
with the same argument but under two filesystem states (file absent
vs. file present), returns different results, refuting "the result does
not depend on external mutable state such as filesystem contents". -/
theorem c3_counterexample :
    FilesystemServer.read_file "notes.txt" fsEmpty
      ≠ FilesystemServer.read_file "notes.txt" fsWithNotes := by decide

/-- C3 amended: each handler is a pure function of its arguments and the
external state it reads; `read_file`'s result depends on that state only
through the entry stored at the requested path and the working directory:
two invocations with equal arguments agreeing on those observations return
equal results. -/
theorem c3_read_file_noninterference (path : String) (fs1 fs2 : FsState)
    (hentry : lookupEntry fs1 path = lookupEntry fs2 path) (hcwd : fs1.cwd = fs2.cwd) :
    FilesystemServer.read_file path fs1 = FilesystemServer.read_file path fs2 := by
  simp only [FilesystemServer.read_file, osPathExists, osPathIsFile, fsOpenRead,
    osPathGetsize, osPathAbspath, hentry, hcwd]

/-- C3 witness: two states agreeing on `notes.txt` and the working
directory (but differing elsewhere) give equal `read_file` results. -/
theorem c3_read_file_noninterference_witness :
    FilesystemServer.read_file "notes.txt" fsWithNotes
      = FilesystemServer.read_file "notes.txt"
          (FsState.mk [("notes.txt", FsEntry.file "hello" true), ("other.txt", FsEntry.dir)] "/home/user") :=
  c3_read_file_noninterference "notes.txt" fsWithNotes
    (FsState.mk [("notes.txt", FsEntry.file "hello" true), ("other.txt", FsEntry.dir)] "/home/user")
    (by decide) (by decide)
